import Mathlib

/-!
Verification of the message reconciliation and delivery buffer of the
Elektro-Scheppers chat backend.

The model below is a shallow embedding of the backend's reconciliation core:
the global stores `botMessages`, `globalMessages`, `userMessages` and
`global.conversationTimeouts`, together with the operations

  * `trackUserMessage`  — `POST /api/track-user-message`,
  * `webhookStore`      — the `isBot === true` storing branch of
                          `POST /api/botpress-webhook`,
  * `fireTimer` / `finalizeConversation`
                        — the 6-second quiet-period `setTimeout` callback,
  * `fallbackStore` / `fireFallbackTimer`
                        — the no-`isBot`-field fallback branch of the same
                          webhook and its own 6-second delivery timeout,
  * `poll`              — `GET /api/bot-response/:conversationId`,
  * `sweep`             — the 5-minute cleanup loop run on each webhook call,
  * `monitorStep`       — one tick of `startBotResponseMonitoring` from the
                          direct-Botpress variant of the backend.

Times are milliseconds as `Nat`.  A pending `setTimeout` handle is modelled by
its scheduled fire instant (`Option Nat`); `clearTimeout` + re-`setTimeout`
is replacement of that value.  JavaScript object sharing (the same message
objects being reachable from both `globalMessages[cid]` and
`botMessages.get(cid).messages`) is modelled by giving fragments unique ids
and applying the `delivered = true` mutation to every stored copy of an id.
-/

namespace ElektroScheppers

/-- JavaScript truthiness of an optional string: `undefined`/`null` and the
empty string are falsy. -/
def jsTruthyStr : Option String → Bool
  | none => false
  | some s => !(s == "")

/-- The string payload of an optional string, empty when absent (used where
the source reads a field it has already checked to be truthy). -/
def strOf : Option String → String
  | none => ""
  | some s => s

/-- `isPrefixChars p s` : the char list `p` is a prefix of `s`. -/
def isPrefixChars : List Char → List Char → Bool
  | [], _ => true
  | _ :: _, [] => false
  | p :: ps, c :: cs => p == c && isPrefixChars ps cs

/-- `containsPat p s` : the char list `p` occurs as a contiguous run in `s`
(JavaScript `String.prototype.includes`). -/
def containsPat (pat : List Char) : List Char → Bool
  | [] => isPrefixChars pat []
  | c :: cs => isPrefixChars pat (c :: cs) || containsPat pat cs

/-- The literal template placeholder the webhook rejects:
`botText.includes('\x7b\x7b $json')`. -/
def placeholderChars : List Char := ("\x7b\x7b $json").data

/-- `hasPlaceholder s` : `s` contains the literal `\x7b\x7b $json`. -/
def hasPlaceholder (s : String) : Bool := containsPat placeholderChars s.data

/-- One stored bot reply fragment: the `newMessage` object built by the
webhook handler (`id`, `text`, `image`, `timestamp`, `receivedAt`,
`delivered`).  Ids are modelled as naturals drawn from a counter, standing in
for the unique synthesized `bot-msg-<ts>-<rand>` strings. -/
structure Fragment where
  id : Nat
  text : Option String
  image : Option String
  timestamp : Nat
  receivedAt : Nat
  delivered : Bool
deriving DecidableEq

/-- One entry of the `botMessages` map:
`{ messages, lastDelivered, allMessagesReceived, deliveryTimeoutId }`. -/
structure ConversationData where
  messages : List Fragment
  lastDelivered : Nat
  allMessagesReceived : Bool
  deliveryTimeoutId : Option Nat
deriving DecidableEq

/-- One entry of the `userMessages` map (`text`, `timestamp`; the `trackedAt`
ISO string records the same instant and is kept implicit). -/
structure TrackedUser where
  text : String
  timestamp : Nat
deriving DecidableEq

/-- The process-wide mutable state of the reconciliation core. -/
structure ServerState where
  botMessages : String → Option ConversationData
  globalMessages : String → Option (List Fragment)
  userMessages : String → Option TrackedUser
  conversationTimeouts : String → Option Nat
  nextId : Nat

/-- Point update of a string-keyed map. -/
def upd {α : Type} (m : String → Option α) (k : String) (v : Option α) :
    String → Option α :=
  fun c => if c = k then v else m c

/-- The state at server startup: every store empty. -/
def initState : ServerState :=
  { botMessages := fun _ => none
    globalMessages := fun _ => none
    userMessages := fun _ => none
    conversationTimeouts := fun _ => none
    nextId := 0 }

/-- `globalMessages[cid]` read as a list (`globalMessages[cid] || []`). -/
def gmOf (s : ServerState) (cid : String) : List Fragment :=
  match s.globalMessages cid with
  | none => []
  | some l => l

/-- The quiet period of the webhook backend: 6000 ms. -/
def quietPeriodMs : Nat := 6000

/-- The quiet period of the direct-Botpress monitoring variant: 5000 ms. -/
def monitorQuietMs : Nat := 5000

/-- The retention window of the cleanup sweep: 5 minutes. -/
def retentionMs : Nat := 5 * 60 * 1000

/-- `POST /api/track-user-message`.  Returns the new state and `true` on
success, or the unchanged state and `false` on the 400 validation error
(`!conversationId || !text`).  On success it clears the conversation's
`botMessages` entry (after `clearTimeout` of its `deliveryTimeoutId` handle),
deletes `globalMessages[cid]`, and overwrites `userMessages[cid]`.  The
source does not touch `global.conversationTimeouts[cid]` here. -/
def trackUserMessage (s : ServerState) (conversationId text : Option String)
    (now : Nat) : ServerState × Bool :=
  if !jsTruthyStr conversationId || !jsTruthyStr text then (s, false)
  else
    let cid := strOf conversationId
    ({ s with
        botMessages := upd s.botMessages cid none
        globalMessages := upd s.globalMessages cid none
        userMessages := upd s.userMessages cid
          (some { text := strOf text, timestamp := now }) },
     true)

/-- The guard of the webhook's storing branch:
`conversationId && (botText || botImage) && (!botText || !botText.includes('\x7b\x7b $json'))`. -/
def storeCond (conversationId botText botImage : Option String) : Bool :=
  jsTruthyStr conversationId && (jsTruthyStr botText || jsTruthyStr botImage)
    && (!jsTruthyStr botText || !hasPlaceholder (strOf botText))

/-- The `isBot === true` storing branch of `POST /api/botpress-webhook`:
push `newMessage` onto `globalMessages[cid]` (created if absent), then
`clearTimeout` any pending countdown for `cid` and arm a fresh 6-second
timeout.  When the guard fails nothing happens. -/
def webhookStore (s : ServerState) (conversationId botText botImage : Option String)
    (now : Nat) : ServerState :=
  if storeCond conversationId botText botImage then
    let cid := strOf conversationId
    let newMessage : Fragment :=
      { id := s.nextId
        text := if jsTruthyStr botText then botText else none
        image := if jsTruthyStr botImage then botImage else none
        timestamp := now
        receivedAt := now
        delivered := false }
    { s with
        globalMessages := upd s.globalMessages cid (some (gmOf s cid ++ [newMessage]))
        conversationTimeouts := upd s.conversationTimeouts cid (some (now + quietPeriodMs))
        nextId := s.nextId + 1 }
  else s

/-- Stable insertion of a fragment behind every strictly earlier timestamp,
ahead of later-or-equal ones. -/
def insertByTs (f : Fragment) : List Fragment → List Fragment
  | [] => [f]
  | g :: gs => if g.timestamp < f.timestamp then g :: insertByTs f gs
               else f :: g :: gs

/-- Stable ascending sort by `timestamp`, the meaning of the source's
`messages.sort((a, b) => a.timestamp - b.timestamp)` (`Array.prototype.sort`
is stable). -/
def sortByTs : List Fragment → List Fragment
  | [] => []
  | f :: l => insertByTs f (sortByTs l)

/-- The body of the quiet-period `setTimeout` callback: sort
`globalMessages[cid] || []` in place, publish it as the (finalized)
`botMessages` entry, delete the tracked user message, and drop the
conversation's entry of `global.conversationTimeouts`. -/
def finalizeConversation (s : ServerState) (cid : String) : ServerState :=
  let finalMessages := sortByTs (gmOf s cid)
  let cd0 : ConversationData :=
    match s.botMessages cid with
    | some cd => cd
    | none =>
      { messages := [], lastDelivered := 0
        allMessagesReceived := false, deliveryTimeoutId := none }
  let cd := { cd0 with
                messages := finalMessages
                allMessagesReceived := true
                deliveryTimeoutId := none }
  { s with
      botMessages := upd s.botMessages cid (some cd)
      globalMessages := upd s.globalMessages cid
        ((s.globalMessages cid).map (fun _ => finalMessages))
      userMessages := upd s.userMessages cid none
      conversationTimeouts := upd s.conversationTimeouts cid none }

/-- A `setTimeout` scheduled for instant `t` runs at `t` only if the
conversation's countdown is still armed with that schedule (`clearTimeout`
or re-arming replaces it); otherwise nothing happens. -/
def fireTimer (s : ServerState) (cid : String) (t : Nat) : ServerState :=
  if s.conversationTimeouts cid = some t then finalizeConversation s cid else s

/-- `c` matches the regex class `[.!?]`. -/
def isStopChar (c : Char) : Bool := c == '.' || c == '!' || c == '?'

/-- Some character of the list matches `[.!?]`. -/
def scanStop : List Char → Bool
  | [] => false
  | c :: cs => isStopChar c || scanStop cs

/-- Some character matches `[a-z]` with a `[.!?]` somewhere after it. -/
def scanLowerStop : List Char → Bool
  | [] => false
  | c :: cs => (c.isLower && scanStop cs) || scanLowerStop cs

/-- `/[A-Z].*[a-z].*[.!?]/.test(s)` : an ASCII uppercase letter, later an
ASCII lowercase letter, later a sentence mark, in that order. -/
def scanUpperLowerStop : List Char → Bool
  | [] => false
  | c :: cs => (c.isUpper && scanLowerStop cs) || scanUpperLowerStop cs

/-- The authorship heuristic of the webhook's no-`isBot` fallback branch:
`botText && (botText.length > 20 || botText.includes('!') ||
botText.includes('?') || botText.includes('helpen') ||
botText.includes('kan ik') || /[A-Z].*[a-z].*[.!?]/.test(botText))`. -/
def looksLikeBotResponse (botText : Option String) : Bool :=
  jsTruthyStr botText &&
    (decide (20 < (strOf botText).length)
      || containsPat ("!").data (strOf botText).data
      || containsPat ("?").data (strOf botText).data
      || containsPat ("helpen").data (strOf botText).data
      || containsPat ("kan ik").data (strOf botText).data
      || scanUpperLowerStop (strOf botText).data)

/-- The combined guard of the fallback storing branch: the outer check
`!trackedUserMessage || botText !== trackedUserMessage.text` and the inner
`(looksLikeBotResponse || botImage) && conversationId && (botText || botImage)
&& (!botText || !botText.includes('\x7b\x7b $json'))`. -/
def fallbackGuard (s : ServerState) (conversationId botText botImage : Option String) :
    Bool :=
  (match s.userMessages (strOf conversationId) with
   | none => true
   | some tu => !(botText == some tu.text)) &&
  ((looksLikeBotResponse botText || jsTruthyStr botImage)
    && jsTruthyStr conversationId && (jsTruthyStr botText || jsTruthyStr botImage)
    && (!jsTruthyStr botText || !hasPlaceholder (strOf botText)))

/-- The no-`isBot`-field fallback branch of `POST /api/botpress-webhook`:
get or create the conversation's `botMessages` entry, push the new fragment
and sort the entry's array in place, `clearTimeout` the entry's old
`deliveryTimeoutId` and arm a fresh 6-second one whose callback sets
`allMessagesReceived = true` and `deliveryTimeoutId = null`, then delete the
tracked user message.  The branch does NOT reset `allMessagesReceived`, so
on an entry finalized by an earlier cycle the flag stays `true` while the
handle is armed.  (When the entry's array is shared with
`globalMessages[cid]` — after a main-path finalize — the in-place push and
sort are also visible there in the source; the model keeps this branch's
write to `botMessages` only, which no theorem of this file observes.) -/
def fallbackStore (s : ServerState) (conversationId botText botImage : Option String)
    (now : Nat) : ServerState :=
  if fallbackGuard s conversationId botText botImage then
    let cid := strOf conversationId
    let cd0 : ConversationData :=
      match s.botMessages cid with
      | some cd => cd
      | none =>
        { messages := [], lastDelivered := 0
          allMessagesReceived := false, deliveryTimeoutId := none }
    let newMessage : Fragment :=
      { id := s.nextId
        text := if jsTruthyStr botText then botText else none
        image := if jsTruthyStr botImage then botImage else none
        timestamp := now
        receivedAt := now
        delivered := false }
    let cd := { cd0 with
                  messages := sortByTs (cd0.messages ++ [newMessage])
                  deliveryTimeoutId := some (now + quietPeriodMs) }
    { s with
        botMessages := upd s.botMessages cid (some cd)
        userMessages := upd s.userMessages cid none
        nextId := s.nextId + 1 }
  else s

/-- The fallback branch's `setTimeout` callback, scheduled for instant `t`:
if the conversation's entry still holds that armed handle, set
`allMessagesReceived = true` and clear `deliveryTimeoutId` in the same
step; otherwise (handle cleared, replaced, or entry deleted — the mutation
of a dead object) nothing observable happens. -/
def fireFallbackTimer (s : ServerState) (cid : String) (t : Nat) : ServerState :=
  match s.botMessages cid with
  | some cd =>
    if cd.deliveryTimeoutId = some t then
      { s with
          botMessages := upd s.botMessages cid
            (some { cd with allMessagesReceived := true, deliveryTimeoutId := none }) }
    else s
  | none => s

/-- The delivery view built by `GET /api/bot-response/:conversationId`:
the `botMessages` entry if present, otherwise the fallback object wrapping
`globalMessages[cid]` with `allMessagesReceived = !stillCollecting`. -/
def deliverView (s : ServerState) (cid : String) : Option ConversationData :=
  match s.botMessages cid with
  | some cd => some cd
  | none =>
    match s.globalMessages cid with
    | some gm =>
      some { messages := gm
             lastDelivered := 0
             allMessagesReceived := !(s.conversationTimeouts cid).isSome
             deliveryTimeoutId := none }
    | none => none

/-- The response of `GET /api/bot-response/:conversationId`. -/
inductive PollResult where
  | ready (messages : List Fragment)
  | alreadyDelivered
  | collecting (messagesReceived : Nat) (timeoutActive : Bool)
  | empty
deriving DecidableEq

/-- `msg.delivered = true` applied to one fragment object when its id is in
`ids`. -/
def markOne (ids : List Nat) (f : Fragment) : Fragment :=
  if f.id ∈ ids then { f with delivered := true } else f

/-- `msg.delivered = true` applied across a stored list: every copy of a
marked id is flipped (JavaScript mutates the shared objects). -/
def markDeliveredIn (ids : List Nat) (l : List Fragment) : List Fragment :=
  l.map (markOne ids)

/-- `messages.filter(msg => !msg.delivered).sort((a, b) => a.timestamp - b.timestamp)`,
the undelivered batch computed by the poll endpoint. -/
def undeliveredOf (cd : ConversationData) : List Fragment :=
  sortByTs (cd.messages.filter (fun m => !m.delivered))

/-- The state after the poll endpoint runs `msg.delivered = true` over the
returned batch: via object sharing this updates every stored copy of the
marked ids, in the `botMessages` entry and in `globalMessages[cid]`. -/
def pollMarkState (s : ServerState) (cid : String) (ids : List Nat) : ServerState :=
  { s with
      botMessages := upd s.botMessages cid
        ((s.botMessages cid).map
          (fun cd0 => { cd0 with messages := markDeliveredIn ids cd0.messages }))
      globalMessages := upd s.globalMessages cid
        ((s.globalMessages cid).map (markDeliveredIn ids)) }

/-- `GET /api/bot-response/:conversationId`.  On the READY branch the
undelivered messages are filtered, sorted by `timestamp`, flipped to
`delivered = true` and returned. -/
def poll (s : ServerState) (cid : String) : ServerState × PollResult :=
  match deliverView s cid with
  | none => (s, PollResult.empty)
  | some cd =>
    if 0 < cd.messages.length then
      if cd.allMessagesReceived then
        if 0 < (undeliveredOf cd).length then
          (pollMarkState s cid ((undeliveredOf cd).map (fun m => m.id)),
           PollResult.ready
             (markDeliveredIn ((undeliveredOf cd).map (fun m => m.id)) (undeliveredOf cd)))
        else (s, PollResult.alreadyDelivered)
      else (s, PollResult.collecting cd.messages.length
              (s.conversationTimeouts cid).isSome)
    else (s, PollResult.empty)

/-- One `botMessages` entry under the cleanup sweep: an entry still
collecting with a live delivery timeout is skipped; otherwise messages with
`timestamp < fiveMinutesAgo` are filtered out and an entry left empty is
deleted (its timeout cleared first). -/
def sweepConvData (cutoff : Nat) (cd : ConversationData) : Option ConversationData :=
  if !cd.allMessagesReceived && cd.deliveryTimeoutId.isSome then some cd
  else if (cd.messages.filter (fun m => cutoff ≤ m.timestamp)).length = 0 then none
  else some { cd with messages := cd.messages.filter (fun m => cutoff ≤ m.timestamp) }

/-- The cleanup block run at the end of every webhook invocation: prune
`botMessages` entrywise and delete tracked user messages older than the
retention window.  (`fiveMinutesAgo = Date.now() - 300000`; `Nat`
subtraction matches the source whenever `retentionMs ≤ now`.) -/
def sweep (s : ServerState) (now : Nat) : ServerState :=
  let cutoff := now - retentionMs
  { s with
      botMessages := fun c => (s.botMessages c).bind (sweepConvData cutoff)
      userMessages := fun c => (s.userMessages c).bind
        (fun u => if u.timestamp < cutoff then none else some u) }

/-- A message fetched from the vendor API by `startBotResponseMonitoring`
in the direct-Botpress backend. -/
structure VendorMessage where
  id : Nat
  userId : String
  conversationId : String
  text : Option String
  image : Option String
  createdAt : Nat
deriving DecidableEq

/-- The filter of `startBotResponseMonitoring`: not a user message, not the
tracked user text, has truthy text, and its id is not already stored in
`globalMessages[cid]`. -/
def isNewBotMessage (s : ServerState) (cid : String) (msg : VendorMessage) : Bool :=
  !(msg.userId == msg.conversationId)
    && (match s.userMessages cid with
        | none => true
        | some tu => !(msg.text == some tu.text))
    && jsTruthyStr msg.text
    && !((gmOf s cid).any (fun st => st.id == msg.id))

/-- One 2-second tick of `startBotResponseMonitoring`: filter the fetched
messages, append the new ones to `globalMessages[cid]`, and when at least
one was appended re-arm the 5-second finalize timeout. -/
def monitorStep (s : ServerState) (cid : String) (msgs : List VendorMessage)
    (now : Nat) : ServerState :=
  let newBot := (msgs.filter (isNewBotMessage s cid)).map fun m =>
    { id := m.id
      text := if jsTruthyStr m.text then m.text else none
      image := if jsTruthyStr m.image then m.image else none
      timestamp := m.createdAt
      receivedAt := now
      delivered := false : Fragment }
  if 0 < newBot.length then
    { s with
        globalMessages := upd s.globalMessages cid (some (gmOf s cid ++ newBot))
        conversationTimeouts := upd s.conversationTimeouts cid (some (now + monitorQuietMs)) }
  else s

/-- Fragment `g` is stored for conversation `cid` (in either the
`botMessages` entry or the `globalMessages` array). -/
def storedIn (s : ServerState) (cid : String) (g : Fragment) : Prop :=
  (∃ cd, s.botMessages cid = some cd ∧ g ∈ cd.messages) ∨
  (∃ gm, s.globalMessages cid = some gm ∧ g ∈ gm)

/-- A fragment with its delivery mark erased, used to compare a returned
batch with the stored undelivered fragments. -/
def stripDelivered (f : Fragment) : Fragment := { f with delivered := false }

/-- States reachable from server startup by the reconciliation operations,
including the webhook's no-`isBot` fallback branch and both timer
callbacks. -/
inductive Reachable : ServerState → Prop where
  | init : Reachable initState
  | trackStep (s : ServerState) (cid text : Option String) (now : Nat) :
      Reachable s → Reachable (trackUserMessage s cid text now).1
  | storeStep (s : ServerState) (cid txt img : Option String) (now : Nat) :
      Reachable s → Reachable (webhookStore s cid txt img now)
  | fireStep (s : ServerState) (cid : String) (t : Nat) :
      Reachable s → Reachable (fireTimer s cid t)
  | fallbackStep (s : ServerState) (cid txt img : Option String) (now : Nat) :
      Reachable s → Reachable (fallbackStore s cid txt img now)
  | fireFallbackStep (s : ServerState) (cid : String) (t : Nat) :
      Reachable s → Reachable (fireFallbackTimer s cid t)
  | pollStep (s : ServerState) (cid : String) :
      Reachable s → Reachable (poll s cid).1
  | sweepStep (s : ServerState) (now : Nat) :
      Reachable s → Reachable (sweep s now)

/-! ### Concrete scenario states, used as test vectors by the witnesses -/

/-- Conversation id of the main scenario. -/
def convA : String := "conv-a"

/-- Conversation id of a second, finalized-and-stale conversation. -/
def convB : String := "conv-b"

/-- A vendor user id distinct from `convA`. -/
def userA : String := "user-1"

/-- First tracked user text. -/
def hiMsg : String := "hello"

/-- Second tracked user text. -/
def hiMsg2 : String := "second question"

/-- Bot reply text A. -/
def replyA : String := "reply A"

/-- Bot reply text B. -/
def replyB : String := "reply B"

/-- Bot reply text C. -/
def replyC : String := "reply C"

/-- A literal template placeholder leaking from the automation tool. -/
def phText : String := "\x7b\x7b $json.text \x7d\x7d"

/-- The empty string, an invalid (falsy) tracking payload. -/
def emptyText : String := ""

/-- After tracking `hello` for `convA` at t = 0. -/
def sTracked : ServerState :=
  (trackUserMessage initState (some convA) (some hiMsg) 0).1

/-- After one bot fragment arrives at t = 1000. -/
def sOneFrag : ServerState :=
  webhookStore sTracked (some convA) (some replyA) none 1000

/-- After the quiet-period countdown fires at t = 7000. -/
def sFinal : ServerState := fireTimer sOneFrag convA (1000 + quietPeriodMs)

/-- A late fragment arrives at t = 8000, after finalization, with no new
tracked message in between. -/
def sLate : ServerState := webhookStore sFinal (some convA) (some replyB) none 8000

/-- A new user message is tracked at t = 2000 while the countdown armed at
t = 1000 is still pending. -/
def sRetrack : ServerState :=
  (trackUserMessage sOneFrag (some convA) (some hiMsg2) 2000).1

/-- The single fragment of the main scenario, as stored. -/
def fragA : Fragment :=
  { id := 0, text := some replyA, image := none
    timestamp := 1000, receivedAt := 1000, delivered := false }

/-- The same fragment after delivery. -/
def fragADone : Fragment :=
  { id := 0, text := some replyA, image := none
    timestamp := 1000, receivedAt := 1000, delivered := true }

/-- Ordering scenario: fragments appended at t = 300, then 100, then 200. -/
def sOrd1 : ServerState := webhookStore sTracked (some convA) (some replyA) none 300

/-- Ordering scenario after the second fragment. -/
def sOrd2 : ServerState := webhookStore sOrd1 (some convA) (some replyB) none 100

/-- Ordering scenario after the third fragment. -/
def sOrd3 : ServerState := webhookStore sOrd2 (some convA) (some replyC) none 200

/-- Ordering scenario, finalized at t = 6200. -/
def sOrdF : ServerState := fireTimer sOrd3 convA (200 + quietPeriodMs)

/-- Stored fragment with timestamp 100 (appended second). -/
def fragOrd1 : Fragment :=
  { id := 1, text := some replyB, image := none
    timestamp := 100, receivedAt := 100, delivered := false }

/-- Stored fragment with timestamp 200 (appended third). -/
def fragOrd2 : Fragment :=
  { id := 2, text := some replyC, image := none
    timestamp := 200, receivedAt := 200, delivered := false }

/-- Stored fragment with timestamp 300 (appended first). -/
def fragOrd3 : Fragment :=
  { id := 0, text := some replyA, image := none
    timestamp := 300, receivedAt := 300, delivered := false }

/-- `fragOrd1` after delivery. -/
def fragOrd1d : Fragment := { fragOrd1 with delivered := true }

/-- `fragOrd2` after delivery. -/
def fragOrd2d : Fragment := { fragOrd2 with delivered := true }

/-- `fragOrd3` after delivery. -/
def fragOrd3d : Fragment := { fragOrd3 with delivered := true }

/-- The finalized buffer of the ordering scenario: sorted 100, 200, 300. -/
def cdOrd : ConversationData :=
  { messages := [fragOrd1, fragOrd2, fragOrd3]
    lastDelivered := 0, allMessagesReceived := true, deliveryTimeoutId := none }

/-- A vendor message fetched by the monitoring loop. -/
def vendorMsg : VendorMessage :=
  { id := 7, userId := userA, conversationId := convA
    text := some replyA, image := none, createdAt := 10 }

/-- After one monitoring tick stored `vendorMsg`. -/
def sMon1 : ServerState := monitorStep initState convA [vendorMsg] 0

/-- An old, already delivered fragment (timestamp 0). -/
def oldFrag : Fragment :=
  { id := 3, text := some replyA, image := none
    timestamp := 0, receivedAt := 0, delivered := true }

/-- A still-collecting buffer holding `oldFrag` with a live delivery timer. -/
def cdCollecting : ConversationData :=
  { messages := [oldFrag], lastDelivered := 0
    allMessagesReceived := false, deliveryTimeoutId := some 42 }

/-- A finalized buffer holding only `oldFrag`. -/
def cdFinalizedOld : ConversationData :=
  { messages := [oldFrag], lastDelivered := 0
    allMessagesReceived := true, deliveryTimeoutId := none }

/-- A Dutch bot-looking text for the fallback branch (contains `kan ik`
and `?`). -/
def fbText : String := "Hoe kan ik u helpen?"

/-- A second bot-looking fallback text (contains `?`). -/
def fbText2 : String := "Nog iets?"

/-- The fragment stored by the first fallback append at t = 100. -/
def fragFb : Fragment :=
  { id := 0, text := some fbText, image := none
    timestamp := 100, receivedAt := 100, delivered := false }

/-- After the first fallback append for `convB` at t = 100. -/
def sFb1 : ServerState := fallbackStore initState (some convB) (some fbText) none 100

/-- The `botMessages` entry of `sFb1`: collecting, handle armed for 6100. -/
def cdFb1 : ConversationData :=
  { messages := [fragFb], lastDelivered := 0
    allMessagesReceived := false, deliveryTimeoutId := some 6100 }

/-- After the fallback delivery timeout fires at t = 6100 (finalizes). -/
def sFb2 : ServerState := fireFallbackTimer sFb1 convB 6100

/-- A second fallback fragment arrives at t = 7000, after finalization:
the handle is re-armed while `allMessagesReceived` stays `true`. -/
def sFb3 : ServerState := fallbackStore sFb2 (some convB) (some fbText2) none 7000

/-- Sweep scenario: `convA` collecting with a live timer, `convB` finalized
and old, plus an old tracked user message for `convA`. -/
def sSweepIn : ServerState :=
  { botMessages := fun c =>
      if c = convA then some cdCollecting
      else if c = convB then some cdFinalizedOld else none
    globalMessages := fun _ => none
    userMessages := fun c =>
      if c = convA then some { text := hiMsg, timestamp := 0 } else none
    conversationTimeouts := fun _ => none
    nextId := 0 }

/-! ### Helper lemmas: map updates -/

@[simp]
theorem upd_same {α : Type} (m : String → Option α) (k : String) (v : Option α) :
    upd m k v k = v := by
  simp [upd]

theorem upd_other {α : Type} (m : String → Option α) (k c : String) (v : Option α)
    (h : c ≠ k) : upd m k v c = m c := by
  simp [upd, h]

/-! ### Helper lemmas: the stable sort -/

theorem mem_insertByTs (f g : Fragment) (l : List Fragment) :
    g ∈ insertByTs f l ↔ g = f ∨ g ∈ l := by
  induction l with
  | nil => simp [insertByTs]
  | cons a t ih =>
    simp only [insertByTs]
    split
    · rw [List.mem_cons, ih, List.mem_cons]
      tauto
    · simp only [List.mem_cons]

theorem insertByTs_perm (f : Fragment) (l : List Fragment) :
    List.Perm (insertByTs f l) (f :: l) := by
  induction l with
  | nil => simp [insertByTs]
  | cons a t ih =>
    simp only [insertByTs]
    split
    · exact (ih.cons a).trans (List.Perm.swap f a t)
    · exact List.Perm.refl _

theorem sortByTs_perm (l : List Fragment) : List.Perm (sortByTs l) l := by
  induction l with
  | nil => simp [sortByTs]
  | cons f t ih => exact (insertByTs_perm f (sortByTs t)).trans (ih.cons f)

theorem mem_sortByTs (g : Fragment) (l : List Fragment) :
    g ∈ sortByTs l ↔ g ∈ l :=
  (sortByTs_perm l).mem_iff

theorem length_sortByTs (l : List Fragment) :
    (sortByTs l).length = l.length :=
  (sortByTs_perm l).length_eq

theorem sorted_insertByTs (f : Fragment) (l : List Fragment)
    (h : l.Pairwise (fun a b => a.timestamp ≤ b.timestamp)) :
    (insertByTs f l).Pairwise (fun a b => a.timestamp ≤ b.timestamp) := by
  induction l with
  | nil => simp [insertByTs]
  | cons a t ih =>
    rcases List.pairwise_cons.mp h with ⟨ha, ht⟩
    simp only [insertByTs]
    split
    · rename_i hlt
      refine List.pairwise_cons.mpr ⟨?_, ih ht⟩
      intro x hx
      rcases (mem_insertByTs f x t).mp hx with rfl | hxt
      · exact Nat.le_of_lt hlt
      · exact ha x hxt
    · rename_i hnlt
      refine List.pairwise_cons.mpr ⟨?_, h⟩
      intro x hx
      rcases List.mem_cons.mp hx with rfl | hxt
      · exact Nat.le_of_not_lt hnlt
      · exact Nat.le_trans (Nat.le_of_not_lt hnlt) (ha x hxt)

theorem sortByTs_sorted (l : List Fragment) :
    (sortByTs l).Pairwise (fun a b => a.timestamp ≤ b.timestamp) := by
  induction l with
  | nil => simp [sortByTs]
  | cons f t ih => exact sorted_insertByTs f (sortByTs t) ih

theorem filter_ts_insertByTs (f : Fragment) (l : List Fragment) (k : Nat) :
    (insertByTs f l).filter (fun x => x.timestamp == k) =
      (if f.timestamp == k then [f] else []) ++
        l.filter (fun x => x.timestamp == k) := by
  induction l with
  | nil => simp [insertByTs, List.filter_cons]
  | cons a t ih =>
    simp only [insertByTs]
    split
    · rename_i hlt
      by_cases hak : (a.timestamp == k) = true
      · by_cases hfk : (f.timestamp == k) = true
        · exfalso
          simp only [beq_iff_eq] at hak hfk
          omega
        · simp [List.filter_cons, hak, hfk, ih]
      · simp [List.filter_cons, hak, ih]
    · by_cases hfk : (f.timestamp == k) = true
      · simp [List.filter_cons, hfk]
      · simp [List.filter_cons, hfk]

theorem filter_ts_sortByTs (l : List Fragment) (k : Nat) :
    (sortByTs l).filter (fun x => x.timestamp == k) =
      l.filter (fun x => x.timestamp == k) := by
  induction l with
  | nil => rfl
  | cons f t ih =>
    simp only [sortByTs, filter_ts_insertByTs, ih, List.filter_cons]
    split <;> simp

/-! ### Helper lemmas: delivery marking -/

theorem id_markOne (ids : List Nat) (f : Fragment) :
    (markOne ids f).id = f.id := by
  unfold markOne
  split <;> rfl

theorem ts_markOne (ids : List Nat) (f : Fragment) :
    (markOne ids f).timestamp = f.timestamp := by
  unfold markOne
  split <;> rfl

theorem length_markDeliveredIn (ids : List Nat) (l : List Fragment) :
    (markDeliveredIn ids l).length = l.length := by
  simp [markDeliveredIn]

theorem map_id_markDeliveredIn (ids : List Nat) (l : List Fragment) :
    (markDeliveredIn ids l).map (fun f => f.id) = l.map (fun f => f.id) := by
  induction l with
  | nil => rfl
  | cons a t ih => simp only [markDeliveredIn, List.map_cons, id_markOne] at *; rw [ih]

theorem markOne_delivered (ids : List Nat) (a : Fragment)
    (h : a.delivered = false → a.id ∈ ids) : (markOne ids a).delivered = true := by
  unfold markOne
  split
  · rfl
  · rename_i hmem
    cases hd : a.delivered with
    | true => rfl
    | false => exact absurd (h hd) hmem

theorem delivered_of_mem_mark (ids : List Nat) (l : List Fragment) (g : Fragment)
    (hg : g ∈ markDeliveredIn ids l) (hid : g.id ∈ ids) : g.delivered = true := by
  rcases List.mem_map.mp hg with ⟨g0, _, rfl⟩
  rw [id_markOne] at hid
  exact markOne_delivered ids g0 (fun _ => hid)

theorem filter_mark_nil (ids : List Nat) (l : List Fragment)
    (h : ∀ f ∈ l, f.delivered = false → f.id ∈ ids) :
    (markDeliveredIn ids l).filter (fun m => !m.delivered) = [] := by
  induction l with
  | nil => rfl
  | cons a t ih =>
    have ha : (markOne ids a).delivered = true :=
      markOne_delivered ids a (h a (List.mem_cons_self a t))
    simp only [markDeliveredIn, List.map_cons, List.filter_cons, ha]
    simpa [markDeliveredIn] using ih (fun f hf => h f (List.mem_cons_of_mem a hf))

theorem strip_markOne (ids : List Nat) (f : Fragment) :
    stripDelivered (markOne ids f) = stripDelivered f := by
  unfold markOne
  split <;> rfl

theorem strip_eq_self (f : Fragment) (h : f.delivered = false) :
    stripDelivered f = f := by
  cases f
  simp_all [stripDelivered]

/-! ### Helper lemmas: evaluating the poll endpoint -/

theorem deliverView_bm (s : ServerState) (cid : String) (cd : ConversationData)
    (h : s.botMessages cid = some cd) : deliverView s cid = some cd := by
  unfold deliverView
  rw [h]

theorem deliverView_fallback (s : ServerState) (cid : String) (gm : List Fragment)
    (hb : s.botMessages cid = none) (hg : s.globalMessages cid = some gm) :
    deliverView s cid = some
      { messages := gm, lastDelivered := 0
        allMessagesReceived := !(s.conversationTimeouts cid).isSome
        deliveryTimeoutId := none } := by
  unfold deliverView
  rw [hb, hg]

theorem deliverView_none (s : ServerState) (cid : String)
    (hb : s.botMessages cid = none) (hg : s.globalMessages cid = none) :
    deliverView s cid = none := by
  unfold deliverView
  rw [hb, hg]

theorem poll_ready_eval (s : ServerState) (cid : String) (cd : ConversationData)
    (hv : deliverView s cid = some cd)
    (hlen : 0 < cd.messages.length)
    (hfin : cd.allMessagesReceived = true)
    (hund : 0 < (undeliveredOf cd).length) :
    poll s cid =
      (pollMarkState s cid ((undeliveredOf cd).map (fun m => m.id)),
       PollResult.ready
         (markDeliveredIn ((undeliveredOf cd).map (fun m => m.id)) (undeliveredOf cd))) := by
  unfold poll
  rw [hv]
  simp [hlen, hfin, hund]

theorem poll_already_eval (s : ServerState) (cid : String) (cd : ConversationData)
    (hv : deliverView s cid = some cd)
    (hlen : 0 < cd.messages.length)
    (hfin : cd.allMessagesReceived = true)
    (hund : cd.messages.filter (fun m => !m.delivered) = []) :
    poll s cid = (s, PollResult.alreadyDelivered) := by
  unfold poll
  rw [hv]
  simp [hlen, hfin, undeliveredOf, hund, sortByTs]

theorem poll_collecting_eval (s : ServerState) (cid : String) (cd : ConversationData)
    (hv : deliverView s cid = some cd)
    (hlen : 0 < cd.messages.length)
    (hfin : cd.allMessagesReceived = false) :
    poll s cid = (s, PollResult.collecting cd.messages.length
      (s.conversationTimeouts cid).isSome) := by
  unfold poll
  rw [hv]
  simp [hlen, hfin]

theorem poll_empty_eval_nolen (s : ServerState) (cid : String) (cd : ConversationData)
    (hv : deliverView s cid = some cd)
    (hlen : ¬ 0 < cd.messages.length) :
    poll s cid = (s, PollResult.empty) := by
  unfold poll
  rw [hv]
  simp [hlen]

theorem poll_empty_eval_noview (s : ServerState) (cid : String)
    (hv : deliverView s cid = none) :
    poll s cid = (s, PollResult.empty) := by
  unfold poll
  rw [hv]

theorem poll_ready_inv (s : ServerState) (cid : String) (fs : List Fragment)
    (h : (poll s cid).2 = PollResult.ready fs) :
    ∃ cd, deliverView s cid = some cd ∧ 0 < cd.messages.length ∧
      cd.allMessagesReceived = true ∧
      0 < (undeliveredOf cd).length ∧
      fs = markDeliveredIn ((undeliveredOf cd).map (fun m => m.id)) (undeliveredOf cd) ∧
      poll s cid = (pollMarkState s cid ((undeliveredOf cd).map (fun m => m.id)),
        PollResult.ready fs) := by
  cases hv : deliverView s cid with
  | none =>
    rw [poll_empty_eval_noview s cid hv] at h
    exact absurd h (by simp)
  | some cd =>
    by_cases hlen : 0 < cd.messages.length
    · by_cases hfin : cd.allMessagesReceived = true
      · by_cases hund : 0 < (undeliveredOf cd).length
        · have he := poll_ready_eval s cid cd hv hlen hfin hund
          rw [he] at h
          simp only at h
          injection h with h
          exact ⟨cd, rfl, hlen, hfin, hund, h.symm, by rw [he, h]⟩
        · have hnil : cd.messages.filter (fun m => !m.delivered) = [] := by
            have hl := length_sortByTs (cd.messages.filter (fun m => !m.delivered))
            rw [undeliveredOf] at hund
            have h0 : (cd.messages.filter (fun m => !m.delivered)).length = 0 := by omega
            exact List.eq_nil_of_length_eq_zero h0
          rw [poll_already_eval s cid cd hv hlen hfin hnil] at h
          exact absurd h (by simp)
      · have hfin2 : cd.allMessagesReceived = false := by
          cases hval : cd.allMessagesReceived
          · rfl
          · exact absurd hval hfin
        rw [poll_collecting_eval s cid cd hv hlen hfin2] at h
        exact absurd h (by simp)
    · rw [poll_empty_eval_nolen s cid cd hv hlen] at h
      exact absurd h (by simp)

theorem view_cases (s : ServerState) (cid : String) (cd : ConversationData)
    (hv : deliverView s cid = some cd) :
    s.botMessages cid = some cd ∨
    (s.botMessages cid = none ∧ s.globalMessages cid = some cd.messages ∧
     cd.allMessagesReceived = !(s.conversationTimeouts cid).isSome) := by
  unfold deliverView at hv
  cases hb : s.botMessages cid with
  | some cd0 =>
    rw [hb] at hv
    injection hv with hv
    exact Or.inl (by rw [hv])
  | none =>
    rw [hb] at hv
    cases hg : s.globalMessages cid with
    | none =>
      rw [hg] at hv
      exact absurd hv (by simp)
    | some gm =>
      rw [hg] at hv
      injection hv with hv
      refine Or.inr ⟨rfl, ?_, ?_⟩
      · rw [← hv]
      · rw [← hv]

theorem storedIn_of_view (s : ServerState) (cid : String) (cd : ConversationData)
    (hv : deliverView s cid = some cd) (g : Fragment) (hg : g ∈ cd.messages) :
    storedIn s cid g := by
  rcases view_cases s cid cd hv with hb | ⟨_, hgm, _⟩
  · exact Or.inl ⟨cd, hb, hg⟩
  · exact Or.inr ⟨cd.messages, hgm, hg⟩

theorem stored_mark_delivered (s : ServerState) (cid : String) (ids : List Nat)
    (g : Fragment) (hg : storedIn (pollMarkState s cid ids) cid g)
    (hid : g.id ∈ ids) : g.delivered = true := by
  rcases hg with ⟨cd2, hcd2, hmem⟩ | ⟨gm2, hgm2, hmem⟩
  · simp only [pollMarkState, upd_same] at hcd2
    rcases Option.map_eq_some'.mp hcd2 with ⟨cd0, _, rfl⟩
    exact delivered_of_mem_mark ids cd0.messages g hmem hid
  · simp only [pollMarkState, upd_same] at hgm2
    rcases Option.map_eq_some'.mp hgm2 with ⟨gm0, _, rfl⟩
    exact delivered_of_mem_mark ids gm0 g hmem hid

theorem filter_undelivered_subset_ids (cd : ConversationData) (f : Fragment)
    (hf : f ∈ cd.messages) (hd : f.delivered = false) :
    f.id ∈ (undeliveredOf cd).map (fun m => m.id) := by
  refine List.mem_map.mpr ⟨f, ?_, rfl⟩
  rw [undeliveredOf, mem_sortByTs]
  exact List.mem_filter.mpr ⟨hf, by simp [hd]⟩

/-! ### Claim theorems -/

/-- C1: after a poll returns READY with fragments `fs`, every returned
fragment is marked delivered, every stored copy of a returned id is marked
delivered in the post-state, every returned fragment corresponds to a
fragment that was stored undelivered in the pre-state, and an immediate
second poll for the same conversation returns ALREADY_DELIVERED (which
carries zero fragments) without changing the state — so no fragment is
returned by two polls. -/
theorem poll_at_most_once_delivery (s : ServerState) (cid : String)
    (fs : List Fragment) (h : (poll s cid).2 = PollResult.ready fs) :
    (∀ f ∈ fs, f.delivered = true) ∧
    (∀ f ∈ fs, ∃ g, storedIn s cid g ∧ g.id = f.id ∧ g.delivered = false) ∧
    (∀ g, storedIn (poll s cid).1 cid g → g.id ∈ fs.map (fun f => f.id) →
      g.delivered = true) ∧
    poll (poll s cid).1 cid = ((poll s cid).1, PollResult.alreadyDelivered) := by
  rcases poll_ready_inv s cid fs h with ⟨cd, hv, hlen, hfin, hund, hfs, hpoll⟩
  have hids : fs.map (fun f => f.id) = (undeliveredOf cd).map (fun m => m.id) := by
    rw [hfs, map_id_markDeliveredIn]
  have hsub : ∀ f ∈ cd.messages, f.delivered = false →
      f.id ∈ (undeliveredOf cd).map (fun m => m.id) :=
    fun f hf hd => filter_undelivered_subset_ids cd f hf hd
  refine ⟨?_, ?_, ?_, ?_⟩
  · intro f hf
    rw [hfs] at hf
    rcases List.mem_map.mp hf with ⟨g0, hg0, rfl⟩
    exact markOne_delivered _ g0 (fun _ => List.mem_map.mpr ⟨g0, hg0, rfl⟩)
  · intro f hf
    rw [hfs] at hf
    rcases List.mem_map.mp hf with ⟨g0, hg0, rfl⟩
    rw [undeliveredOf, mem_sortByTs] at hg0
    rcases List.mem_filter.mp hg0 with ⟨h1, h2⟩
    exact ⟨g0, storedIn_of_view s cid cd hv g0 h1,
      (id_markOne _ g0).symm, by simpa using h2⟩
  · intro g hg hgid
    rw [hpoll] at hg
    rw [hids] at hgid
    exact stored_mark_delivered s cid _ g hg hgid
  · rw [hpoll]
    show poll (pollMarkState s cid ((undeliveredOf cd).map (fun m => m.id))) cid =
      (pollMarkState s cid ((undeliveredOf cd).map (fun m => m.id)),
       PollResult.alreadyDelivered)
    rcases view_cases s cid cd hv with hb | ⟨hb, hg, hrecv⟩
    · have hbm2 : (pollMarkState s cid ((undeliveredOf cd).map (fun m => m.id))).botMessages cid =
          some { cd with messages :=
            markDeliveredIn ((undeliveredOf cd).map (fun m => m.id)) cd.messages } := by
        simp [pollMarkState, upd_same, hb]
      refine poll_already_eval _ cid _ (deliverView_bm _ cid _ hbm2) ?_ hfin ?_
      · simpa [length_markDeliveredIn] using hlen
      · exact filter_mark_nil _ cd.messages hsub
    · have hbm2 : (pollMarkState s cid ((undeliveredOf cd).map (fun m => m.id))).botMessages cid = none := by
        simp [pollMarkState, upd_same, hb]
      have hgm2 : (pollMarkState s cid ((undeliveredOf cd).map (fun m => m.id))).globalMessages cid =
          some (markDeliveredIn ((undeliveredOf cd).map (fun m => m.id)) cd.messages) := by
        simp [pollMarkState, upd_same, hg]
      have hview2 := deliverView_fallback _ cid _ hbm2 hgm2
      refine poll_already_eval _ cid _ hview2 ?_ ?_ ?_
      · simpa [length_markDeliveredIn] using hlen
      · show (!((pollMarkState s cid ((undeliveredOf cd).map (fun m => m.id))).conversationTimeouts cid).isSome) = true
        exact hrecv.symm.trans hfin
      · exact filter_mark_nil _ cd.messages hsub

/-- Witness for C1: the end-to-end scenario track → fragment → quiet period
→ READY poll → ALREADY_DELIVERED poll, at the concrete state `sFinal`. -/
theorem poll_at_most_once_delivery_witness :
    (poll sFinal convA).2 = PollResult.ready [fragADone] ∧
    ((∀ f ∈ [fragADone], f.delivered = true) ∧
     (∀ f ∈ [fragADone], ∃ g, storedIn sFinal convA g ∧ g.id = f.id ∧
        g.delivered = false) ∧
     (∀ g, storedIn (poll sFinal convA).1 convA g →
        g.id ∈ [fragADone].map (fun f => f.id) → g.delivered = true) ∧
     poll (poll sFinal convA).1 convA =
       ((poll sFinal convA).1, PollResult.alreadyDelivered)) :=
  ⟨by decide, poll_at_most_once_delivery sFinal convA [fragADone] (by decide)⟩

/-- A map whose function fixes every member is the identity. -/
theorem map_eq_self_of_mem {α : Type} (g : α → α) (l : List α)
    (h : ∀ x ∈ l, g x = x) : l.map g = l := by
  induction l with
  | nil => rfl
  | cons a t ih =>
    simp only [List.map_cons, h a (List.mem_cons_self a t),
      ih (fun x hx => h x (List.mem_cons_of_mem a hx))]

/-- Marking commutes with filtering on a timestamp value. -/
theorem filter_ts_mark (ids : List Nat) (l : List Fragment) (k : Nat) :
    (markDeliveredIn ids l).filter (fun x => x.timestamp == k) =
      markDeliveredIn ids (l.filter (fun x => x.timestamp == k)) := by
  induction l with
  | nil => rfl
  | cons a t ih =>
    simp only [markDeliveredIn, List.map_cons, List.filter_cons, ts_markOne] at *
    by_cases hk : (a.timestamp == k) = true
    · simp [hk, ih]
    · simp [hk, ih]

/-- C2: a READY poll on a finalized `botMessages` buffer returns the
undelivered fragments (up to their delivered mark) sorted ascending by
`timestamp`, with fragments of equal timestamp kept in the buffer's stored
(insertion) order; in particular fragments appended with timestamps
300, 100, 200 come back ordered 100, 200, 300 (see the witness). -/
theorem poll_ready_sorted_stable (s : ServerState) (cid : String)
    (cd : ConversationData) (fs : List Fragment)
    (hbm : s.botMessages cid = some cd)
    (h : (poll s cid).2 = PollResult.ready fs) :
    fs.Pairwise (fun a b => a.timestamp ≤ b.timestamp) ∧
    List.Perm (fs.map stripDelivered) (cd.messages.filter (fun m => !m.delivered)) ∧
    (∀ k, (fs.filter (fun x => x.timestamp == k)).map stripDelivered =
      (cd.messages.filter (fun m => !m.delivered)).filter
        (fun x => x.timestamp == k)) := by
  rcases poll_ready_inv s cid fs h with ⟨cd2, hv, _, _, _, hfs, _⟩
  have hcd : cd = cd2 := by
    have h2 : some cd = some cd2 := (deliverView_bm s cid cd hbm).symm.trans hv
    injection h2
  subst hcd
  have hall : ∀ x ∈ undeliveredOf cd,
      (stripDelivered ∘ markOne ((undeliveredOf cd).map (fun m => m.id))) x = x := by
    intro x hx
    rw [undeliveredOf, mem_sortByTs] at hx
    rcases List.mem_filter.mp hx with ⟨_, hd⟩
    have hdf : x.delivered = false := by simpa using hd
    simp [Function.comp, strip_markOne, strip_eq_self x hdf]
  refine ⟨?_, ?_, ?_⟩
  · rw [hfs, markDeliveredIn, List.pairwise_map]
    exact (sortByTs_sorted (cd.messages.filter (fun m => !m.delivered))).imp
      (fun hab => by rw [ts_markOne, ts_markOne]; exact hab)
  · rw [hfs, markDeliveredIn, List.map_map, map_eq_self_of_mem _ _ hall]
    exact sortByTs_perm _
  · intro k
    rw [hfs, filter_ts_mark]
    have hU : (undeliveredOf cd).filter (fun x => x.timestamp == k) =
        (cd.messages.filter (fun m => !m.delivered)).filter
          (fun x => x.timestamp == k) := by
      rw [undeliveredOf, filter_ts_sortByTs]
    rw [hU, markDeliveredIn, List.map_map]
    apply map_eq_self_of_mem
    intro x hx
    rcases List.mem_filter.mp hx with ⟨hx1, _⟩
    apply hall
    rw [undeliveredOf, mem_sortByTs]
    exact hx1

/-- Witness for C2: fragments appended with timestamps 300, 100, 200 are
returned by the finalized poll as 100, 200, 300. -/
theorem poll_ready_sorted_stable_witness :
    (sOrdF.botMessages convA = some cdOrd ∧
     (poll sOrdF convA).2 = PollResult.ready [fragOrd1d, fragOrd2d, fragOrd3d]) ∧
    ([fragOrd1d, fragOrd2d, fragOrd3d].Pairwise
       (fun a b => a.timestamp ≤ b.timestamp) ∧
     List.Perm ([fragOrd1d, fragOrd2d, fragOrd3d].map stripDelivered)
       (cdOrd.messages.filter (fun m => !m.delivered)) ∧
     (∀ k, (([fragOrd1d, fragOrd2d, fragOrd3d].filter
          (fun x => x.timestamp == k)).map stripDelivered) =
        (cdOrd.messages.filter (fun m => !m.delivered)).filter
          (fun x => x.timestamp == k))) :=
  ⟨⟨by decide, by decide⟩,
   poll_ready_sorted_stable sOrdF convA cdOrd [fragOrd1d, fragOrd2d, fragOrd3d]
     (by decide) (by decide)⟩

/-! ### Helper lemmas: evaluating track, finalize and fireTimer -/

theorem track_success_eval (s : ServerState) (cid text : String) (now : Nat)
    (hc : cid ≠ "") (ht : text ≠ "") :
    trackUserMessage s (some cid) (some text) now =
      ({ s with
          botMessages := upd s.botMessages cid none
          globalMessages := upd s.globalMessages cid none
          userMessages := upd s.userMessages cid
            (some { text := text, timestamp := now }) }, true) := by
  have hcb : (cid == "") = false := by simpa using hc
  have htb : (text == "") = false := by simpa using ht
  have hguard : (!jsTruthyStr (some cid) || !jsTruthyStr (some text)) = false := by
    simp [jsTruthyStr, hcb, htb]
  unfold trackUserMessage
  rw [hguard]
  rfl

theorem finalize_bm (s : ServerState) (cid : String) :
    ∃ ld, (finalizeConversation s cid).botMessages cid =
      some { messages := sortByTs (gmOf s cid), lastDelivered := ld
             allMessagesReceived := true, deliveryTimeoutId := none } := by
  unfold finalizeConversation
  cases hb : s.botMessages cid with
  | none => exact ⟨0, by simp [upd_same]⟩
  | some cd0 => exact ⟨cd0.lastDelivered, by simp [upd_same]⟩

theorem finalize_userMessages (s : ServerState) (cid : String) :
    (finalizeConversation s cid).userMessages cid = none := by
  unfold finalizeConversation
  simp [upd_same]

theorem finalize_timeouts (s : ServerState) (cid : String) :
    (finalizeConversation s cid).conversationTimeouts cid = none := by
  unfold finalizeConversation
  simp [upd_same]

theorem poll_after_fire_empty (s2 : ServerState) (cid : String)
    (hbm : s2.botMessages cid = none) (hgm : s2.globalMessages cid = none) :
    ∀ t, (poll (fireTimer s2 cid t) cid).2 = PollResult.empty := by
  intro t
  unfold fireTimer
  split
  · have hgm0 : gmOf s2 cid = [] := by unfold gmOf; rw [hgm]
    rcases finalize_bm s2 cid with ⟨ld, hbm2⟩
    rw [hgm0] at hbm2
    rw [poll_empty_eval_nolen _ cid _ (deliverView_bm _ cid _ hbm2) (by simp [sortByTs])]
  · rw [poll_empty_eval_noview _ cid (deliverView_none _ cid hbm hgm)]

/-- C3 counterexample: at the concrete state `sOneFrag` a quiet-period
countdown (scheduled for t = 7000) is pending; tracking a new user message
succeeds and clears the buffer, but the countdown is still armed afterwards
— `track` does not cancel the conversation's pending finalize timer. -/
theorem track_leaves_countdown_armed :
    (trackUserMessage sOneFrag (some convA) (some hiMsg2) 2000).2 = true ∧
    sOneFrag.conversationTimeouts convA = some 7000 ∧
    sRetrack.conversationTimeouts convA = some 7000 ∧
    sRetrack.conversationTimeouts convA ≠ none := by
  refine ⟨by decide, by decide, by decide, by decide⟩

/-- C3 (amended): a successful `track` overwrites the tracked user message
and clears the conversation's fragment buffer (both the `botMessages` entry,
after releasing its delivery-timeout handle, and `globalMessages`), but it
leaves the global quiet-period countdown exactly as it was; nevertheless a
poll issued after the track and before any new fragment arrives returns
EMPTY — never fragments of the previous cycle — even if the leftover
countdown fires in between. -/
theorem track_starts_new_cycle (s : ServerState) (cid text : String) (now : Nat)
    (hc : cid ≠ "") (ht : text ≠ "") :
    (trackUserMessage s (some cid) (some text) now).2 = true ∧
    (trackUserMessage s (some cid) (some text) now).1.userMessages cid =
      some { text := text, timestamp := now } ∧
    (trackUserMessage s (some cid) (some text) now).1.botMessages cid = none ∧
    (trackUserMessage s (some cid) (some text) now).1.globalMessages cid = none ∧
    (trackUserMessage s (some cid) (some text) now).1.conversationTimeouts =
      s.conversationTimeouts ∧
    (poll (trackUserMessage s (some cid) (some text) now).1 cid).2 =
      PollResult.empty ∧
    (∀ t, (poll (fireTimer (trackUserMessage s (some cid) (some text) now).1 cid t) cid).2 =
      PollResult.empty) := by
  rw [track_success_eval s cid text now hc ht]
  refine ⟨rfl, upd_same _ _ _, upd_same _ _ _, upd_same _ _ _, rfl, ?_, ?_⟩
  · rw [poll_empty_eval_noview _ cid
      (deliverView_none _ cid (upd_same _ _ _) (upd_same _ _ _))]
  · exact poll_after_fire_empty _ cid (upd_same _ _ _) (upd_same _ _ _)

/-- Witness for C3's amended theorem at the concrete retrack scenario. -/
theorem track_starts_new_cycle_witness :
    (trackUserMessage sOneFrag (some convA) (some hiMsg2) 2000).2 = true ∧
    (trackUserMessage sOneFrag (some convA) (some hiMsg2) 2000).1.userMessages convA =
      some { text := hiMsg2, timestamp := 2000 } ∧
    (trackUserMessage sOneFrag (some convA) (some hiMsg2) 2000).1.botMessages convA = none ∧
    (trackUserMessage sOneFrag (some convA) (some hiMsg2) 2000).1.globalMessages convA = none ∧
    (trackUserMessage sOneFrag (some convA) (some hiMsg2) 2000).1.conversationTimeouts =
      sOneFrag.conversationTimeouts ∧
    (poll (trackUserMessage sOneFrag (some convA) (some hiMsg2) 2000).1 convA).2 =
      PollResult.empty ∧
    (∀ t, (poll (fireTimer (trackUserMessage sOneFrag (some convA) (some hiMsg2) 2000).1 convA t) convA).2 =
      PollResult.empty) :=
  track_starts_new_cycle sOneFrag convA hiMsg2 2000 (by decide) (by decide)

/-! ### Helper lemmas: evaluating the webhook store and the sweep -/

theorem store_eval (s : ServerState) (cid : String) (txt img : Option String)
    (now : Nat) (h : storeCond (some cid) txt img = true) :
    webhookStore s (some cid) txt img now =
      { s with
          globalMessages := upd s.globalMessages cid
            (some (gmOf s cid ++
              [{ id := s.nextId
                 text := if jsTruthyStr txt then txt else none
                 image := if jsTruthyStr img then img else none
                 timestamp := now, receivedAt := now, delivered := false }]))
          conversationTimeouts := upd s.conversationTimeouts cid
            (some (now + quietPeriodMs))
          nextId := s.nextId + 1 } := by
  unfold webhookStore
  rw [if_pos h]
  rfl

theorem store_timeouts (s : ServerState) (cid : String) (txt img : Option String)
    (now : Nat) (h : storeCond (some cid) txt img = true) :
    (webhookStore s (some cid) txt img now).conversationTimeouts cid =
      some (now + quietPeriodMs) := by
  rw [store_eval s cid txt img now h]
  exact upd_same _ _ _

theorem sweep_bm_eval (s : ServerState) (now : Nat) (cid : String) :
    (sweep s now).botMessages cid =
      (s.botMessages cid).bind (sweepConvData (now - retentionMs)) := rfl

theorem sweep_um_eval (s : ServerState) (now : Nat) (cid : String) :
    (sweep s now).userMessages cid =
      (s.userMessages cid).bind
        (fun u => if u.timestamp < now - retentionMs then none else some u) := rfl

theorem sweepConvData_skipped (cutoff : Nat) (cd : ConversationData)
    (hrec : cd.allMessagesReceived = false)
    (hdt : cd.deliveryTimeoutId.isSome = true) :
    sweepConvData cutoff cd = some cd := by
  unfold sweepConvData
  rw [hrec, hdt]
  simp

theorem sweepConvData_pruned (cutoff : Nat) (cd : ConversationData)
    (hrec : cd.allMessagesReceived = true) :
    sweepConvData cutoff cd =
      (if (cd.messages.filter (fun m => cutoff ≤ m.timestamp)).length = 0 then none
       else some { cd with
         messages := cd.messages.filter (fun m => cutoff ≤ m.timestamp) }) := by
  unfold sweepConvData
  rw [hrec]
  simp

/-! ### Claim theorems (continued) -/

/-- C4: every successful append replaces the conversation's quiet-period
countdown (the old schedule is gone, the `Option`-valued timer slot holds at
most one schedule) with a fresh one a full quiet period after the append;
after appending A at `t1` and B at `t2 > t1` the only armed schedule is
`t2 + 6000`, firing at the old deadline `t1 + 6000` is a no-op, and firing
at `t2 + 6000` finalizes the buffer — finalization happens one quiet period
after the LAST fragment, never earlier. -/
theorem append_debounces (s : ServerState) (cid : String) (t1 t2 : Nat)
    (txt1 img1 txt2 img2 : Option String)
    (h1 : storeCond (some cid) txt1 img1 = true)
    (h2 : storeCond (some cid) txt2 img2 = true)
    (h12 : t1 < t2) :
    (webhookStore s (some cid) txt1 img1 t1).conversationTimeouts cid =
      some (t1 + quietPeriodMs) ∧
    (webhookStore (webhookStore s (some cid) txt1 img1 t1)
        (some cid) txt2 img2 t2).conversationTimeouts cid =
      some (t2 + quietPeriodMs) ∧
    fireTimer (webhookStore (webhookStore s (some cid) txt1 img1 t1)
        (some cid) txt2 img2 t2) cid (t1 + quietPeriodMs) =
      webhookStore (webhookStore s (some cid) txt1 img1 t1)
        (some cid) txt2 img2 t2 ∧
    (∃ cd, (fireTimer (webhookStore (webhookStore s (some cid) txt1 img1 t1)
        (some cid) txt2 img2 t2) cid (t2 + quietPeriodMs)).botMessages cid =
      some cd ∧ cd.allMessagesReceived = true) := by
  have hco1 := store_timeouts s cid txt1 img1 t1 h1
  have hco2 := store_timeouts (webhookStore s (some cid) txt1 img1 t1)
    cid txt2 img2 t2 h2
  refine ⟨hco1, hco2, ?_, ?_⟩
  · unfold fireTimer
    rw [hco2, if_neg]
    intro hcontra
    injection hcontra with hcontra
    omega
  · unfold fireTimer
    rw [hco2, if_pos rfl]
    rcases finalize_bm (webhookStore (webhookStore s (some cid) txt1 img1 t1)
      (some cid) txt2 img2 t2) cid with ⟨ld, hbm⟩
    exact ⟨_, hbm, rfl⟩

/-- Witness for C4: appends at t = 1000 and t = 3000; the countdown ends up
scheduled at 9000, firing at 7000 does nothing, firing at 9000 finalizes. -/
theorem append_debounces_witness :
    (webhookStore sTracked (some convA) (some replyA) none 1000).conversationTimeouts convA =
      some (1000 + quietPeriodMs) ∧
    (webhookStore (webhookStore sTracked (some convA) (some replyA) none 1000)
        (some convA) (some replyB) none 3000).conversationTimeouts convA =
      some (3000 + quietPeriodMs) ∧
    fireTimer (webhookStore (webhookStore sTracked (some convA) (some replyA) none 1000)
        (some convA) (some replyB) none 3000) convA (1000 + quietPeriodMs) =
      webhookStore (webhookStore sTracked (some convA) (some replyA) none 1000)
        (some convA) (some replyB) none 3000 ∧
    (∃ cd, (fireTimer (webhookStore (webhookStore sTracked (some convA) (some replyA) none 1000)
        (some convA) (some replyB) none 3000) convA (3000 + quietPeriodMs)).botMessages convA =
      some cd ∧ cd.allMessagesReceived = true) :=
  append_debounces sTracked convA 1000 3000 (some replyA) none (some replyB) none
    (by decide) (by decide) (by decide)

/-- C5: in the direct-Botpress monitoring loop, a fetched message whose id
is already stored in the conversation's buffer is filtered out, so
re-appending an existing fragment id is a no-op — the buffer's size and
contents are unchanged (and no timer is re-armed); appending the same id
twice leaves a buffer of size 1 (see the witness). -/
theorem monitor_dedups_by_id (s : ServerState) (cid : String) (m : VendorMessage)
    (now : Nat) (h : (gmOf s cid).any (fun st => st.id == m.id) = true) :
    monitorStep s cid [m] now = s := by
  have hpred : isNewBotMessage s cid m = false := by
    unfold isNewBotMessage
    rw [h]
    simp
  unfold monitorStep
  simp [List.filter, hpred]

/-- Witness for C5: storing `vendorMsg` and then re-submitting it leaves a
buffer of size 1 and an unchanged state. -/
theorem monitor_dedups_by_id_witness :
    (gmOf sMon1 convA).any (fun st => st.id == vendorMsg.id) = true ∧
    (gmOf sMon1 convA).length = 1 ∧
    monitorStep sMon1 convA [vendorMsg] 5 = sMon1 :=
  ⟨by decide, by decide, monitor_dedups_by_id sMon1 convA vendorMsg 5 (by decide)⟩

/-- C6: an incoming fragment with neither a truthy text nor a truthy image
payload, or whose text contains the literal template placeholder, is
rejected with no observable effect: the whole state — buffers, timers, id
counter — is unchanged, and the operation returns normally rather than
raising an error. -/
theorem empty_payload_rejected (s : ServerState) (cid txt img : Option String)
    (now : Nat)
    (h : (jsTruthyStr txt || jsTruthyStr img) = false ∨
         (jsTruthyStr txt = true ∧ hasPlaceholder (strOf txt) = true)) :
    webhookStore s cid txt img now = s := by
  have hc : storeCond cid txt img = false := by
    unfold storeCond
    rcases h with h | ⟨h1, h2⟩
    · simp [h]
    · simp [h1, h2]
  unfold webhookStore
  rw [hc]
  simp

/-- Witness for C6: a literal `\x7b\x7b $json` placeholder payload is a no-op. -/
theorem empty_payload_rejected_witness :
    (jsTruthyStr (some phText) = true ∧
     hasPlaceholder (strOf (some phText)) = true) ∧
    webhookStore initState (some convA) (some phText) none 0 = initState :=
  ⟨⟨by decide, by decide⟩,
   empty_payload_rejected initState (some convA) (some phText) none 0
     (Or.inr ⟨by decide, by decide⟩)⟩

/-- C7: one sweep at time `now` (cutoff `now - retentionMs`): a buffer that
is still collecting with a live delivery timer is kept untouched regardless
of age; a finalized buffer has exactly its fragments older than the cutoff
removed; a finalized buffer left with zero fragments is deleted outright
(its timer handle going with it); and a tracked user message older than the
cutoff is deleted. -/
theorem sweep_spec (s : ServerState) (now : Nat) (cid : String) :
    (∀ cd, s.botMessages cid = some cd → cd.allMessagesReceived = false →
      cd.deliveryTimeoutId.isSome = true →
      (sweep s now).botMessages cid = some cd) ∧
    (∀ cd m cd2, s.botMessages cid = some cd → cd.allMessagesReceived = true →
      m.timestamp < now - retentionMs →
      (sweep s now).botMessages cid = some cd2 → m ∉ cd2.messages) ∧
    (∀ cd, s.botMessages cid = some cd → cd.allMessagesReceived = true →
      cd.messages.filter (fun m => now - retentionMs ≤ m.timestamp) = [] →
      (sweep s now).botMessages cid = none) ∧
    (∀ cd cd2, s.botMessages cid = some cd → cd.allMessagesReceived = true →
      (sweep s now).botMessages cid = some cd2 →
      cd2.messages = cd.messages.filter (fun m => now - retentionMs ≤ m.timestamp)) ∧
    (∀ u, s.userMessages cid = some u → u.timestamp < now - retentionMs →
      (sweep s now).userMessages cid = none) := by
  refine ⟨?_, ?_, ?_, ?_, ?_⟩
  · intro cd hcd hrec hdt
    rw [sweep_bm_eval, hcd]
    simp [sweepConvData_skipped (now - retentionMs) cd hrec hdt]
  · intro cd m cd2 hcd hrec hm hs2
    rw [sweep_bm_eval, hcd] at hs2
    simp only [Option.some_bind, sweepConvData_pruned (now - retentionMs) cd hrec] at hs2
    split at hs2
    · exact absurd hs2 (by simp)
    · injection hs2 with hs2
      rw [← hs2]
      intro hmem
      rcases List.mem_filter.mp hmem with ⟨_, hkeep⟩
      simp only [decide_eq_true_eq] at hkeep
      omega
  · intro cd hcd hrec hfil
    rw [sweep_bm_eval, hcd]
    simp only [Option.some_bind, sweepConvData_pruned (now - retentionMs) cd hrec, hfil]
    simp
  · intro cd cd2 hcd hrec hs2
    rw [sweep_bm_eval, hcd] at hs2
    simp only [Option.some_bind, sweepConvData_pruned (now - retentionMs) cd hrec] at hs2
    split at hs2
    · exact absurd hs2 (by simp)
    · injection hs2 with hs2
      rw [← hs2]
  · intro u hu hlt
    rw [sweep_um_eval, hu, Option.some_bind, if_pos hlt]

/-- Witness for C7: an old collecting buffer with a live timer survives the
sweep, an equally old finalized buffer is deleted, and the old tracked
user message is deleted. -/
theorem sweep_spec_witness :
    (sSweepIn.botMessages convA = some cdCollecting ∧
     cdCollecting.allMessagesReceived = false ∧
     cdCollecting.deliveryTimeoutId.isSome = true ∧
     (sweep sSweepIn 1000000).botMessages convA = some cdCollecting) ∧
    (sSweepIn.botMessages convB = some cdFinalizedOld ∧
     cdFinalizedOld.allMessagesReceived = true ∧
     cdFinalizedOld.messages.filter
       (fun m => 1000000 - retentionMs ≤ m.timestamp) = [] ∧
     (sweep sSweepIn 1000000).botMessages convB = none) ∧
    (sSweepIn.userMessages convA = some { text := hiMsg, timestamp := 0 } ∧
     (sweep sSweepIn 1000000).userMessages convA = none) :=
  ⟨⟨by decide, by decide, by decide,
    (sweep_spec sSweepIn 1000000 convA).1 cdCollecting (by decide) (by decide)
      (by decide)⟩,
   ⟨by decide, by decide, by decide,
    (sweep_spec sSweepIn 1000000 convB).2.2.1 cdFinalizedOld (by decide)
      (by decide) (by decide)⟩,
   ⟨by decide,
    (sweep_spec sSweepIn 1000000 convA).2.2.2.2 { text := hiMsg, timestamp := 0 }
      (by decide) (by decide)⟩⟩

/-- C8: `track` fails exactly when the conversation id or the text is
missing or empty (both JavaScript-falsy cases); the 400 validation error is
returned synchronously and in that case the state is completely unchanged —
no tracked message, buffer or timer is touched. -/
theorem track_validation (s : ServerState) (cid txt : Option String) (now : Nat) :
    ((trackUserMessage s cid txt now).2 = false ↔
      (jsTruthyStr cid = false ∨ jsTruthyStr txt = false)) ∧
    ((jsTruthyStr cid = false ∨ jsTruthyStr txt = false) →
      trackUserMessage s cid txt now = (s, false)) := by
  unfold trackUserMessage
  by_cases hg : (!jsTruthyStr cid || !jsTruthyStr txt) = true
  · rw [if_pos hg]
    simp only [Bool.or_eq_true, Bool.not_eq_true'] at hg
    exact ⟨⟨fun _ => hg, fun _ => rfl⟩, fun _ => rfl⟩
  · rw [if_neg hg]
    simp only [Bool.or_eq_true, Bool.not_eq_true'] at hg
    push_neg at hg
    constructor
    · constructor
      · intro hfalse
        exact absurd hfalse (by simp)
      · intro hcase
        rcases hcase with hc | hc
        · exact absurd hc hg.1
        · exact absurd hc hg.2
    · intro hcase
      rcases hcase with hc | hc
      · exact absurd hc hg.1
      · exact absurd hc hg.2

/-- Witness for C8: empty text is rejected with the state unchanged. -/
theorem track_validation_witness :
    jsTruthyStr (some emptyText) = false ∧
    trackUserMessage initState (some convA) (some emptyText) 5 = (initState, false) :=
  ⟨by decide,
   (track_validation initState (some convA) (some emptyText) 5).2
     (Or.inr (by decide))⟩

/-- C10: when the quiet-period timer fires, the finalization callback also
deletes the conversation's tracked user message (not only at sweep time),
clears the conversation's countdown entry, and leaves a finalized buffer. -/
theorem fire_deletes_tracked (s : ServerState) (cid : String) (t : Nat)
    (h : s.conversationTimeouts cid = some t) :
    (fireTimer s cid t).userMessages cid = none ∧
    (fireTimer s cid t).conversationTimeouts cid = none ∧
    (∃ cd, (fireTimer s cid t).botMessages cid = some cd ∧
      cd.allMessagesReceived = true) := by
  unfold fireTimer
  rw [if_pos h]
  refine ⟨finalize_userMessages s cid, finalize_timeouts s cid, ?_⟩
  rcases finalize_bm s cid with ⟨ld, hbm⟩
  exact ⟨_, hbm, rfl⟩

/-- Witness for C10: the tracked `hello` is present right up to the timer
firing and gone immediately after finalization. -/
theorem fire_deletes_tracked_witness :
    sOneFrag.conversationTimeouts convA = some 7000 ∧
    sOneFrag.userMessages convA = some { text := hiMsg, timestamp := 0 } ∧
    ((fireTimer sOneFrag convA 7000).userMessages convA = none ∧
     (fireTimer sOneFrag convA 7000).conversationTimeouts convA = none ∧
     (∃ cd, (fireTimer sOneFrag convA 7000).botMessages convA = some cd ∧
       cd.allMessagesReceived = true)) :=
  ⟨by decide, by decide, fire_deletes_tracked sOneFrag convA 7000 (by decide)⟩

/-! ### Helper lemmas: per-operation botMessages lookups, for the
reachability induction -/

theorem store_bm (s : ServerState) (cid txt img : Option String) (now : Nat)
    (c : String) :
    (webhookStore s cid txt img now).botMessages c = s.botMessages c := by
  unfold webhookStore
  split
  · rfl
  · rfl

theorem filter_nil_of_sort_len (cd : ConversationData)
    (hund : ¬ 0 < (undeliveredOf cd).length) :
    cd.messages.filter (fun m => !m.delivered) = [] := by
  have hl := length_sortByTs (cd.messages.filter (fun m => !m.delivered))
  rw [undeliveredOf] at hund
  have h0 : (cd.messages.filter (fun m => !m.delivered)).length = 0 := by omega
  exact List.eq_nil_of_length_eq_zero h0

theorem bool_false_of_not_true (b : Bool) (h : ¬ b = true) : b = false := by
  cases b
  · rfl
  · exact absurd rfl h

theorem poll_fst_cases (s : ServerState) (cid : String) :
    (poll s cid).1 = s ∨ ∃ ids, (poll s cid).1 = pollMarkState s cid ids := by
  cases hv : deliverView s cid with
  | none =>
    rw [poll_empty_eval_noview s cid hv]
    exact Or.inl rfl
  | some cd =>
    by_cases hlen : 0 < cd.messages.length
    · by_cases hfin : cd.allMessagesReceived = true
      · by_cases hund : 0 < (undeliveredOf cd).length
        · rw [poll_ready_eval s cid cd hv hlen hfin hund]
          exact Or.inr ⟨_, rfl⟩
        · rw [poll_already_eval s cid cd hv hlen hfin (filter_nil_of_sort_len cd hund)]
          exact Or.inl rfl
      · rw [poll_collecting_eval s cid cd hv hlen (bool_false_of_not_true _ hfin)]
        exact Or.inl rfl
    · rw [poll_empty_eval_nolen s cid cd hv hlen]
      exact Or.inl rfl

theorem pollMarkState_bm (s : ServerState) (cid : String) (ids : List Nat)
    (c : String) :
    (pollMarkState s cid ids).botMessages c = s.botMessages c ∨
    ∃ cd0, s.botMessages c = some cd0 ∧
      (pollMarkState s cid ids).botMessages c =
        some { cd0 with messages := markDeliveredIn ids cd0.messages } := by
  by_cases hc : c = cid
  · subst hc
    cases hb : s.botMessages c with
    | none => exact Or.inl (by simp [pollMarkState, upd_same, hb])
    | some cd0 => exact Or.inr ⟨cd0, rfl, by simp [pollMarkState, upd_same, hb]⟩
  · exact Or.inl (by simp [pollMarkState, upd, hc])

/-- C9 counterexample: `sLate` is reachable (track → append → quiet-period
finalize → late append with no new track in between) and there the
conversation's `botMessages` buffer is finalized while a live quiet-period
countdown is armed for the same conversation — a live pending timer whose
conversation's buffer IS finalized, refuting the claimed invariant. -/
theorem live_timer_with_finalized_buffer :
    Reachable sLate ∧
    (sLate.botMessages convA).map (fun cd => cd.allMessagesReceived) = some true ∧
    sLate.conversationTimeouts convA = some 14000 ∧
    sLate.conversationTimeouts convA ≠ none :=
  ⟨Reachable.storeStep _ _ _ _ _
     (Reachable.fireStep _ _ _
       (Reachable.storeStep _ _ _ _ _
         (Reachable.trackStep _ _ _ _ Reachable.init))),
   by decide, by decide, by decide⟩

/-- A fallback fragment arriving after a fallback finalization re-arms the
entry's `deliveryTimeoutId` while `allMessagesReceived` stays `true`: the
state `sFb3` is reachable and holds a finalized buffer with a live
delivery-timeout handle. -/
theorem fallback_arms_timer_on_finalized :
    Reachable sFb3 ∧
    (sFb3.botMessages convB).map (fun cd => cd.allMessagesReceived) = some true ∧
    (sFb3.botMessages convB).map (fun cd => cd.deliveryTimeoutId) =
      some (some 13000) :=
  ⟨Reachable.fallbackStep _ _ _ _ _
     (Reachable.fireFallbackStep _ _ _
       (Reachable.fallbackStep _ _ _ _ _ Reachable.init)),
   by decide, by decide⟩

/-- C9 (amended): each finalization step clears the timer handle it owns in
the very step in which it sets the finalized flag — when the quiet-period
countdown fires, the conversation's countdown entry is removed and the
published buffer holds `allMessagesReceived = true` with
`deliveryTimeoutId = none`; and when the fallback delivery timeout fires,
it sets `allMessagesReceived = true` and `deliveryTimeoutId = none`
together.  The claimed state invariant itself fails in both directions: a
live quiet-period countdown can coexist with a finalized buffer (the
counterexample), and a live `deliveryTimeoutId` can be armed on an
already-finalized buffer (`fallback_arms_timer_on_finalized`). -/
theorem finalize_clears_own_timer (s : ServerState) (cid : String) (t : Nat) :
    (s.conversationTimeouts cid = some t →
      (fireTimer s cid t).conversationTimeouts cid = none ∧
      (∃ cd, (fireTimer s cid t).botMessages cid = some cd ∧
        cd.allMessagesReceived = true ∧ cd.deliveryTimeoutId = none)) ∧
    (∀ cd, s.botMessages cid = some cd → cd.deliveryTimeoutId = some t →
      (fireFallbackTimer s cid t).botMessages cid =
        some { cd with allMessagesReceived := true, deliveryTimeoutId := none }) := by
  constructor
  · intro ht
    unfold fireTimer
    rw [if_pos ht]
    refine ⟨finalize_timeouts s cid, ?_⟩
    rcases finalize_bm s cid with ⟨ld, hbm⟩
    exact ⟨_, hbm, rfl, rfl⟩
  · intro cd hcd hdt
    unfold fireFallbackTimer
    rw [hcd]
    simp [hdt]

/-- Witness for C9's amended theorem: the quiet-period fire at `sOneFrag`
and the fallback fire at `sFb1` each clear their own handle while setting
the finalized flag. -/
theorem finalize_clears_own_timer_witness :
    (sOneFrag.conversationTimeouts convA = some 7000 ∧
     ((fireTimer sOneFrag convA 7000).conversationTimeouts convA = none ∧
      (∃ cd, (fireTimer sOneFrag convA 7000).botMessages convA = some cd ∧
        cd.allMessagesReceived = true ∧ cd.deliveryTimeoutId = none))) ∧
    (sFb1.botMessages convB = some cdFb1 ∧
     cdFb1.deliveryTimeoutId = some 6100 ∧
     (fireFallbackTimer sFb1 convB 6100).botMessages convB =
       some { cdFb1 with allMessagesReceived := true, deliveryTimeoutId := none }) :=
  ⟨⟨by decide, (finalize_clears_own_timer sOneFrag convA 7000).1 (by decide)⟩,
   ⟨by decide, by decide,
    (finalize_clears_own_timer sFb1 convB 6100).2 cdFb1 (by decide) (by decide)⟩⟩

end ElektroScheppers
